import Mathlib

/-!
Shallow embedding of the Calendly–Salesforce booking reconciliation engine.

JS strings are modelled as `List Char`; `undefined`/`null` as `Option`;
JS truthiness is made explicit per type.  The four source files embedded here:
the two URI-variant webhook handlers (`/api/calendly-hook.js`, legacy and
production halves), the embedded-payload webhook handler ("Version 2"), and
the reconciliation sweep cron job (`/api/cron/sync-calendly.js`).
-/

/-- JS truthiness of a possibly-absent string (`undefined`, `null`, `""` are falsy). -/
def truthyStr : Option (List Char) → Bool
  | none => false
  | some s => !s.isEmpty

/-- JS truthiness of a possibly-absent number (`undefined`, `null`, `0` are falsy). -/
def truthyInt : Option Int → Bool
  | none => false
  | some n => n != 0

/-- `x || null` on a possibly-absent string: absent or empty collapses to `none`. -/
def jsOrNone : Option (List Char) → Option (List Char)
  | none => none
  | some s => if s.isEmpty then none else some s

/-- A JS value that is either a string or `null`. -/
inductive StrOrNull where
  | null : StrOrNull
  | str : List Char → StrOrNull
deriving DecidableEq

/-- JS truthiness of a string-or-null value. -/
def strOrNullTruthy : StrOrNull → Bool
  | .null => false
  | .str s => !s.isEmpty

/-- `x || ""` on a string-or-null value. -/
def jsOrEmpty : StrOrNull → List Char
  | .null => []
  | .str s => if s.isEmpty then [] else s

/-- The payment record attached to a Calendly invitee (the fields the code inspects). -/
structure Payment where
  amount : Option Int
  external_id : Option (List Char)
  provider : Option (List Char)
  currency : Option (List Char)
  successful : Option Bool
deriving DecidableEq

/-- One entry of `questions_and_answers` in the embedded webhook payload. -/
structure QA where
  question : Option (List Char)
  answer : Option (List Char)
deriving DecidableEq

/-- Boolean "is this list a prefix of that one" helper for the substring test. -/
def isPre : List Char → List Char → Bool
  | [], _ => true
  | _ :: _, [] => false
  | a :: as, b :: bs => a == b && isPre as bs

/-- `s.includes(pat)` on char lists: `pat` occurs contiguously in the argument. -/
def containsSub (pat : List Char) : List Char → Bool
  | [] => isPre pat []
  | c :: rest => isPre pat (c :: rest) || containsSub pat rest

/-- `q.question && q.question.toLowerCase().includes('payment')` from part_000. -/
def isPaymentQuestion (q : QA) : Bool :=
  match q.question with
  | none => false
  | some t => !t.isEmpty && containsSub ("payment".toList) (t.map Char.toLower)

/-- The Q&A clause of the embedded webhook handler: the FIRST question containing
"payment" (case-insensitive) is located with `find`, and its answer's truthiness
is the signal (part_000 lines 158–166). -/
def paidQaSignal (qa : List QA) : Bool :=
  match qa.find? isPaymentQuestion with
  | some q => truthyStr q.answer
  | none => false

/-- `paid` on the two URI-variant webhook handlers:
`!!(payment && (payment.amount || payment.external_id || payment.provider))`. -/
def paidHook (payment : Option Payment) : Bool :=
  match payment with
  | none => false
  | some p => truthyInt p.amount || truthyStr p.external_id || truthyStr p.provider

/-- `paid` on the embedded-payload webhook handler (part_000 lines 163–169):
`!!(payload.payment || (paymentQuestion && paymentQuestion.answer) ||
payload.paid === true || payload.payment_status === 'paid')`. -/
def paidEmbedded (payment : Option Payment) (paidFlag : Option Bool)
    (payment_status : Option (List Char)) (qa : List QA) : Bool :=
  payment.isSome || paidQaSignal qa || paidFlag == some true
    || payment_status == some ("paid".toList)

/-- `paid` in the sweep (part_001 line 187): `payment?.successful === true`. -/
def paidSweep (payment : Option Payment) : Bool :=
  match payment with
  | none => false
  | some p => p.successful == some true

/-- Spec signal (a): a payment record is present on the invitee AND at least one
of amount, external reference id, provider name is non-empty/non-zero. -/
def sigPaymentRecord (payment : Option Payment) : Bool :=
  payment.isSome &&
    (truthyInt (payment.bind Payment.amount) || truthyStr (payment.bind Payment.external_id)
      || truthyStr (payment.bind Payment.provider))

/-- Spec signal (b): an explicit payment-status flag equals "paid". -/
def sigStatusPaid (st : Option (List Char)) : Bool := st == some ("paid".toList)

/-- Spec signal (c): an explicit boolean paid flag is true. -/
def sigFlagTrue (pf : Option Bool) : Bool := pf == some true

/-- Spec signal (d): some question whose text contains the word "payment" has a
non-empty free-text answer. -/
def sigQaAnswer (qa : List QA) : Bool := qa.any (fun q => isPaymentQuestion q && truthyStr q.answer)

/-- The spec's `paid` definition, assembled from the four signals exactly as the
spec words it ("Modelled from the spec" side of the refinement for claim C1). -/
def specPaid (payment : Option Payment) (pf : Option Bool) (st : Option (List Char))
    (qa : List QA) : Bool :=
  sigPaymentRecord payment || sigStatusPaid st || sigFlagTrue pf || sigQaAnswer qa

/-- `email.replace(/\\/g, '\\\\')`: double every backslash. -/
def replaceBackslash : List Char → List Char
  | [] => []
  | c :: cs =>
    if c = '\\' then '\\' :: '\\' :: replaceBackslash cs else c :: replaceBackslash cs

/-- `email.replace(/'/g, "\\'")`: put a backslash before every single quote. -/
def replaceQuote : List Char → List Char
  | [] => []
  | c :: cs =>
    if c = '\'' then '\\' :: '\'' :: replaceQuote cs else c :: replaceQuote cs

/-- `safeEmail` on the production webhook variant (calendly-hook.js line 281):
backslashes doubled first, then quotes escaped. -/
def safeEmailProd (e : List Char) : List Char := replaceQuote (replaceBackslash e)

/-- `safeEmail` on the legacy webhook variant, the embedded variant and the sweep
(calendly-hook.js line 89, part_000 line 246, part_001 line 195): quotes only. -/
def safeEmailLegacy (e : List Char) : List Char := replaceQuote e

/-- The SOQL lexer's reading of a single-quoted string literal, starting just
after the opening quote: a backslash escapes the following character, an
unescaped quote terminates.  Returns the literal's value and the remaining
characters, or `none` when the literal never terminates. -/
def readSoqlLit : List Char → Option (List Char × List Char)
  | [] => none
  | c :: cs =>
    if c = '\\' then
      match cs with
      | [] => none
      | d :: ds => (readSoqlLit ds).map (fun p => (d :: p.1, p.2))
    else if c = '\'' then some ([], cs)
    else (readSoqlLit cs).map (fun p => (c :: p.1, p.2))

/-- Number of lookup attempts in the webhook lead resolver (`maxAttempts`). -/
def maxAttempts : Nat := 5

/-- The webhook lead-lookup retry loop (calendly-hook.js lines 96–115):
`q attempt` is the CRM query oracle for that attempt (`.error status` models a
non-ok response, which throws; `.ok r` models the parsed body's
`records[0].Id`).  Returns the outcome, the 1-indexed attempts issued, and the
delays in milliseconds taken between attempts. -/
def retryAux (q : Nat → Except Nat (Option (List Char))) :
    Nat → Nat → Except Nat (Option (List Char)) × List Nat × List Nat
  | _, 0 => (Except.ok none, [], [])
  | attempt, fuel + 1 =>
    match q attempt with
    | .error s => (.error s, [attempt], [])
    | .ok r =>
      match jsOrNone r with
      | some id => (.ok (some id), [attempt], [])
      | none =>
        if attempt < maxAttempts then
          let t := retryAux q (attempt + 1) fuel
          (t.1, attempt :: t.2.1, (2 ^ attempt * 1000) :: t.2.2)
        else (.ok none, [attempt], [])

/-- The full lead search: attempts start at 1, bounded by `maxAttempts`. -/
def leadSearch (q : Nat → Except Nat (Option (List Char))) :
    Except Nat (Option (List Char)) × List Nat × List Nat :=
  retryAux q 1 maxAttempts

/-- Outcome of the lead search. -/
def leadResult (q : Nat → Except Nat (Option (List Char))) : Except Nat (Option (List Char)) :=
  (leadSearch q).1

/-- The 1-indexed attempts the lead search issued. -/
def leadAttempts (q : Nat → Except Nat (Option (List Char))) : List Nat :=
  (leadSearch q).2.1

/-- The inter-attempt delays (ms) the lead search performed, in order. -/
def leadDelays (q : Nat → Except Nat (Option (List Char))) : List Nat :=
  (leadSearch q).2.2

/-- `const startISO = evt?.resource?.start_time || null` on the webhook paths. -/
def hookStartISO (start_time : Option (List Char)) : Option (List Char) :=
  jsOrNone start_time

/-- `surveyDate = startISO ? String(startISO).slice(0, 10) : null` (both webhook
variants line 44/226 and the embedded variant line 155). -/
def hookSurveyDate (start_time : Option (List Char)) : StrOrNull :=
  match hookStartISO start_time with
  | none => .null
  | some s => .str (s.take 10)

/-- `surveyDate = startTime ? startTime.split('T')[0] : ''` on the sweep
(part_001 line 190); `split('T')[0]` is the longest prefix without `'T'`. -/
def sweepSurveyDate (start_time : Option (List Char)) : List Char :=
  match start_time with
  | none => []
  | some s => if s.isEmpty then [] else s.takeWhile (fun c => c ≠ 'T')

/-- The sweep's `surveyDate` as the JS value it is: always a string, never null. -/
def sweepSurveyDateJs (start_time : Option (List Char)) : StrOrNull :=
  .str (sweepSurveyDate start_time)

/-- A JSON field value appearing in a patch body: a string or a boolean. -/
inductive FieldVal where
  | str : List Char → FieldVal
  | bool : Bool → FieldVal
deriving DecidableEq

/-- CRM field name of the survey date, as every patch body spells it. -/
def surveyScheduledField : List Char := "Survey_scheduled__c".toList

/-- CRM field name of the payment-complete flag, as every patch body spells it. -/
def surveyPaymentField : List Char := "Survey_payment_complete__c".toList

/-- The webhook patch body (calendly-hook.js lines 133–136 and 326–329,
part_000 lines 305–308): `{Survey_scheduled__c: surveyDate || "",
Survey_payment_complete__c: !!paid}`. -/
def patchBodyHook (surveyDate : StrOrNull) (paid : Bool) : List (List Char × FieldVal) :=
  [(surveyScheduledField, .str (jsOrEmpty surveyDate)), (surveyPaymentField, .bool paid)]

/-- The sweep patch body (part_001 lines 234–237): same two fields, where the
sweep's `surveyDate` is already a plain string. -/
def patchBodySweep (surveyDate : List Char) (paid : Bool) : List (List Char × FieldVal) :=
  [(surveyScheduledField, .str (if surveyDate.isEmpty then [] else surveyDate)),
    (surveyPaymentField, .bool paid)]

/-- A CRM lead record: the two managed fields plus an opaque map of every other
field (field id to value), which a PATCH must leave untouched. -/
structure LeadRecord where
  surveyScheduled : List Char
  surveyPaymentComplete : Bool
  others : Nat → Option (List Char)

/-- The effect of the two-field PATCH on the record: a full overwrite of the two
managed fields, all other fields untouched. -/
def applyPatch (r : LeadRecord) (surveyDate : StrOrNull) (paid : Bool) : LeadRecord :=
  ⟨jsOrEmpty surveyDate, paid, r.others⟩

/-- The lead fields the sweep's SOQL query selects for an invitee's email. -/
structure SweepLead where
  id : List Char
  firstName : Option (List Char)
  lastName : Option (List Char)
  surveyScheduled : StrOrNull
  surveyPaymentComplete : Bool
deriving DecidableEq

/-- An invitee as the sweep sees it in an event's invitee listing. -/
structure SweepInvitee where
  email : Option (List Char)
  payment : Option Payment
deriving DecidableEq

/-- A scheduled event in the sweep's listing, together with the outcome of the
invitee-listing fetch for it (`.error status` models a non-ok response). -/
structure SweepEvent where
  uri : List Char
  start_time : Option (List Char)
  invitees : Except Nat (List SweepInvitee)

/-- The sweep's CRM environment: the per-email lead query (`.error status`
models a non-ok response) and the per-lead-id patch outcome. -/
structure SweepEnv where
  queryLead : List Char → Except Nat (Option SweepLead)
  patchOk : List Char → Bool

/-- One PATCH request the sweep issued: target lead id and request body. -/
structure PatchCall where
  leadId : List Char
  body : List (List Char × FieldVal)
deriving DecidableEq

/-- The sweep's three aggregate counters. -/
structure Counters where
  processed : Nat
  skipped : Nat
  errors : Nat
deriving DecidableEq

/-- Processing of one invitee by the sweep (part_001 lines 173–259): skip on
missing/empty email, count a query error and continue, skip when no lead is
found, skip when both managed fields are already set (truthy), otherwise issue
exactly one PATCH and count it as processed or as an error. -/
def sweepInviteeStep (env : SweepEnv) (start_time : Option (List Char))
    (inv : SweepInvitee) (c : Counters) : Counters × List PatchCall :=
  match inv.email with
  | none => (⟨c.processed, c.skipped + 1, c.errors⟩, [])
  | some e =>
    if e.isEmpty then (⟨c.processed, c.skipped + 1, c.errors⟩, [])
    else
      match env.queryLead e with
      | .error _ => (⟨c.processed, c.skipped, c.errors + 1⟩, [])
      | .ok none => (⟨c.processed, c.skipped + 1, c.errors⟩, [])
      | .ok (some lead) =>
        if strOrNullTruthy lead.surveyScheduled && lead.surveyPaymentComplete then
          (⟨c.processed, c.skipped + 1, c.errors⟩, [])
        else
          let body := patchBodySweep (sweepSurveyDate start_time) (paidSweep inv.payment)
          if env.patchOk lead.id then
            (⟨c.processed + 1, c.skipped, c.errors⟩, [⟨lead.id, body⟩])
          else
            (⟨c.processed, c.skipped, c.errors + 1⟩, [⟨lead.id, body⟩])

/-- Sequential processing of an event's invitees, accumulating counters and the
PATCH calls issued. -/
def sweepInvitees (env : SweepEnv) (start_time : Option (List Char)) :
    List SweepInvitee → Counters × List PatchCall → Counters × List PatchCall
  | [], acc => acc
  | inv :: rest, acc =>
    let r := sweepInviteeStep env start_time inv acc.1
    sweepInvitees env start_time rest (r.1, acc.2 ++ r.2)

/-- Processing of one event: a failed invitee listing counts one error and
moves on; otherwise each listed invitee is processed in order. -/
def sweepEventStep (env : SweepEnv) (ev : SweepEvent)
    (acc : Counters × List PatchCall) : Counters × List PatchCall :=
  match ev.invitees with
  | .error _ => (⟨acc.1.processed, acc.1.skipped, acc.1.errors + 1⟩, acc.2)
  | .ok l => sweepInvitees env ev.start_time l acc

/-- Sequential processing of all events. -/
def sweepEvents (env : SweepEnv) : List SweepEvent → Counters × List PatchCall → Counters × List PatchCall
  | [], acc => acc
  | ev :: rest, acc => sweepEvents env rest (sweepEventStep env ev acc)

/-- The whole sweep run over the listed events (part_001 lines 149–260). -/
def runSweep (env : SweepEnv) (events : List SweepEvent) : Counters × List PatchCall :=
  sweepEvents env events (⟨0, 0, 0⟩, [])

/-- The sweep's success response body; `none` fields are absent from the JSON. -/
structure SweepResponse where
  ok : Bool
  processed : Option Nat
  skipped : Option Nat
  errors : Option Nat
  totalEvents : Option Nat
deriving DecidableEq

/-- The success response of a sweep run (part_001 lines 70–73 and 271–278): a
run with zero listed events returns early with only `processed: 0`; otherwise
all four aggregate counts are reported. -/
def sweepResponse (env : SweepEnv) (events : List SweepEvent) : SweepResponse :=
  if events.isEmpty then ⟨true, some 0, none, none, none⟩
  else
    let c := (runSweep env events).1
    ⟨true, some c.processed, some c.skipped, some c.errors, some events.length⟩

/-- How many attempts an event contributes to the counters: one per listed
invitee, or a single error when its invitee listing fails. -/
def attemptWeight (ev : SweepEvent) : Nat :=
  match ev.invitees with
  | .error _ => 1
  | .ok l => l.length

/-- Total attempts of a run's event list. -/
def attemptCount (events : List SweepEvent) : Nat := (events.map attemptWeight).sum

/-- Sum of the three counters. -/
def ctot (c : Counters) : Nat := c.processed + c.skipped + c.errors

/-- The sweep trigger's shared-secret gate (part_001 lines 22–29): returns
`true` when the request is rejected with 401.  `secret` is the configured
`CRON_SECRET` (absent or empty is falsy and disables the gate), `header` the
request's authorization header. -/
def cronAuthGate (secret : Option (List Char)) (header : Option (List Char)) : Bool :=
  match secret with
  | none => false
  | some s =>
    if s.isEmpty then false
    else !(header == some ("Bearer ".toList ++ s))

/-- A character class test from the webhook's email regex: `[^\s@]`. -/
def okEmailChar (c : Char) : Bool := !c.isWhitespace && c != '@'

/-- The domain part must contain a dot with at least one character on each
side (within the part), matching `[^\s@]+\.[^\s@]+$` after the `@`. -/
def interiorDot (b : List Char) : Bool := ((b.drop 1).dropLast).contains '.'

/-- The production webhook's email validity test,
`/^[^\s@]+@[^\s@]+\.[^\s@]+$/` (calendly-hook.js line 276): a non-empty
whitespace-free local part, one `@`, and a domain part with an interior dot. -/
def validEmail (s : List Char) : Bool :=
  match s.dropWhile (fun c => c ≠ '@') with
  | [] => false
  | _ :: b =>
    let a := s.takeWhile (fun c => c ≠ '@')
    !a.isEmpty && a.all okEmailChar && !b.isEmpty && b.all okEmailChar && interiorDot b

/-- The event resource fetched from the booking service (fields used). -/
structure CalEvent where
  start_time : Option (List Char)
  timezone : Option (List Char)
deriving DecidableEq

/-- The invitee resource fetched from the booking service (fields used). -/
structure CalInvitee where
  timezone : Option (List Char)
  payment : Option Payment
deriving DecidableEq

/-- Environment of a production webhook invocation: configuration plus the
outcomes of each external dependency (`.error status` models a non-ok
response). -/
structure HookEnv where
  calendlyPat : List Char
  fetchInvitee : Except Nat CalInvitee
  fetchEvent : Except Nat CalEvent
  sfAuth : Except Nat Unit
  query : Nat → Except Nat (Option (List Char))
  patchOk : Bool

/-- Response classes of the webhook handler. -/
inductive HookResp where
  | badRequest : List Char → HookResp
  | serverError : List Char → HookResp
  | notFound : HookResp
  | success : List Char → HookResp
deriving DecidableEq

/-- An external call the webhook handler performs, in order. -/
inductive ExtCall where
  | calInvitee : ExtCall
  | calEvent : ExtCall
  | sfToken : ExtCall
  | sfQuery : Nat → ExtCall
  | sfPatch : List Char → List (List Char × FieldVal) → ExtCall
deriving DecidableEq

/-- The production webhook handler (calendly-hook.js lines 186–368): input
checks, the two booking-service fetches, booking derivation, CRM
authentication, the email validity gate, the bounded-retry lead query, and the
two-field PATCH.  Returns the response, the external calls made in order, and
the retry delays (ms) taken. -/
def prodHandler (inviteeUri eventUri email : Option (List Char)) (env : HookEnv) :
    HookResp × List ExtCall × List Nat :=
  if !(truthyStr inviteeUri && truthyStr eventUri && truthyStr email) then
    (.badRequest ("inviteeUri, eventUri, email are required".toList), [], [])
  else if env.calendlyPat.isEmpty then
    (.serverError ("Missing CALENDLY_PAT env var".toList), [], [])
  else
    match env.fetchInvitee with
    | .error s => (.serverError ("Calendly invitee error".toList ++ [' '] ++ (Nat.toDigits 10 s)), [.calInvitee], [])
    | .ok inv =>
      match env.fetchEvent with
      | .error s => (.serverError ("Calendly event error".toList ++ [' '] ++ (Nat.toDigits 10 s)), [.calInvitee, .calEvent], [])
      | .ok evt =>
        let surveyDate := hookSurveyDate evt.start_time
        let paid := paidHook inv.payment
        match env.sfAuth with
        | .error _ => (.serverError ("SF token error".toList), [.calInvitee, .calEvent, .sfToken], [])
        | .ok _ =>
          if !(validEmail (email.getD [])) then
            (.badRequest ("Invalid email format".toList), [.calInvitee, .calEvent, .sfToken], [])
          else
            let r := leadSearch env.query
            let pre := [ExtCall.calInvitee, ExtCall.calEvent, ExtCall.sfToken]
              ++ r.2.1.map ExtCall.sfQuery
            match r.1 with
            | .error _ => (.serverError ("SF query error".toList), pre, r.2.2)
            | .ok none => (.notFound, pre, r.2.2)
            | .ok (some leadId) =>
              let body := patchBodyHook surveyDate paid
              if env.patchOk then
                (.success leadId, pre ++ [.sfPatch leadId body], r.2.2)
              else
                (.serverError ("SF patch error".toList), pre ++ [.sfPatch leadId body], r.2.2)

/-- A patch body carrying exactly the two managed field names, in order. -/
def twoFieldBody (pc : PatchCall) : Prop :=
  pc.body.map Prod.fst = [surveyScheduledField, surveyPaymentField]

/-- A payment record whose only content is `successful: true` (the sweep's
signal), with none of the spec's signal-(a) fields populated. -/
def successOnlyPayment : Payment := ⟨none, none, none, none, some true⟩

/-- A payment record with a non-zero amount (spec signal (a) holds). -/
def amountPayment : Payment := ⟨some 100, none, none, none, none⟩

/-- A Q&A list with a single payment question carrying a non-empty answer. -/
def exQaPaid : List QA := [⟨some ("Payment received?".toList), some ("yes".toList)⟩]

/-- Query oracle that finds a lead on the second attempt. -/
def exQueryFound2 : Nat → Except Nat (Option (List Char)) :=
  fun n => if n = 2 then .ok (some ['L']) else .ok none

/-- A lead whose two managed fields are both already set. -/
def exLeadSet : SweepLead := ⟨"00Q1".toList, none, none, .str ("2025-11-03".toList), true⟩

/-- A lead whose two managed fields are both still unset. -/
def exLeadUnset : SweepLead := ⟨"00Q2".toList, none, none, .null, false⟩

/-- Sweep environment resolving every email to the already-set lead. -/
def exEnvLeadSet : SweepEnv := ⟨fun _ => .ok (some exLeadSet), fun _ => true⟩

/-- Sweep environment resolving every email to the unset lead, patches succeed. -/
def exEnvLeadUnset : SweepEnv := ⟨fun _ => .ok (some exLeadUnset), fun _ => true⟩

/-- An invitee with a non-empty email and no payment record. -/
def exInviteeA : SweepInvitee := ⟨some ("a@b.co".toList), none⟩

/-- One event with one listed invitee and a concrete start time. -/
def exEventOne : SweepEvent :=
  ⟨"https://ev1".toList, some ("2025-11-03T10:00:00Z".toList), .ok [exInviteeA]⟩

/-- Webhook environment in which every external dependency succeeds. -/
def exHookEnvOk : HookEnv :=
  ⟨['t'], .ok ⟨none, none⟩, .ok ⟨some ("2025-11-03T10:00:00Z".toList), none⟩, .ok (),
    fun _ => .ok (some ("L1".toList)), true⟩

/-- When at most one question mentions "payment", the embedded handler's
first-match Q&A signal coincides with the spec's any-match signal. -/
theorem paidQaSignal_eq_any (qa : List QA) (h : qa.countP isPaymentQuestion ≤ 1) :
    paidQaSignal qa = sigQaAnswer qa := by
  induction qa with
  | nil => rfl
  | cons q rest ih =>
    by_cases hq : isPaymentQuestion q = true
    · have hall : ∀ x ∈ rest, isPaymentQuestion x = false := by
        rw [List.countP_cons] at h
        simp [hq] at h
        exact h
      have hrest : rest.any (fun x => isPaymentQuestion x && truthyStr x.answer) = false := by
        rw [Bool.eq_false_iff]
        intro hany
        rcases List.any_eq_true.mp hany with ⟨x, hx, hpx⟩
        simp only [Bool.and_eq_true] at hpx
        rw [hall x hx] at hpx
        exact Bool.false_ne_true hpx.1
      simp [paidQaSignal, sigQaAnswer, List.find?_cons_of_pos _ hq, hq, hrest]
    · have hle : rest.countP isPaymentQuestion ≤ 1 := by
        rw [List.countP_cons] at h
        omega
      have hq' : isPaymentQuestion q = false := by
        rw [Bool.eq_false_iff]; exact hq
      simp [paidQaSignal, sigQaAnswer, List.find?_cons_of_neg _ hq, hq']
      have := ih hle
      simpa [paidQaSignal, sigQaAnswer] using this

/-- C1: counterexample to "the same paid definition applies on every path".  On
the sweep path, a payment record carrying only `successful: true` yields
`paid = true`, while the spec's four-signal definition yields `false` (none of
amount, external id, provider, status flag, boolean flag, or Q&A answer is
set). -/
theorem paid_same_definition_counterexample :
    paidSweep (some successOnlyPayment) = true ∧
    specPaid (some successOnlyPayment) none none [] = false := by
  constructor <;> rfl

/-- C1 (amended): each path computes `paid` by its own rule.  The URI-variant
webhook handlers compute exactly the spec's signal (a); the sweep sets `paid`
iff the payment record's `successful` field is `true`; on the embedded-payload
handler, signal (a) implies `paid` (presence of a payment record suffices
there), and when at most one question mentions "payment" its rule is the OR of
record-presence with the spec's signals (b), (c), (d). -/
theorem paid_per_path_characterization (pm : Option Payment) (pf : Option Bool)
    (st : Option (List Char)) (qa : List QA) :
    paidHook pm = sigPaymentRecord pm ∧
    paidSweep pm = (pm.bind Payment.successful == some true) ∧
    (sigPaymentRecord pm = true → paidEmbedded pm pf st qa = true) ∧
    (qa.countP isPaymentQuestion ≤ 1 →
      paidEmbedded pm pf st qa
        = (pm.isSome || sigQaAnswer qa || sigFlagTrue pf || sigStatusPaid st)) := by
  refine ⟨?_, ?_, ?_, ?_⟩
  · cases pm <;> simp [paidHook, sigPaymentRecord]
  · cases pm <;> simp [paidSweep, Option.bind]
  · intro hsig
    have hsome : pm.isSome = true := by
      cases pm with
      | none => exact absurd hsig (by simp [sigPaymentRecord])
      | some p => rfl
    simp [paidEmbedded, hsome]
  · intro hle
    rw [paidEmbedded, paidQaSignal_eq_any qa hle, sigFlagTrue, sigStatusPaid]

/-- C1 witness: the amended characterization applied at concrete inputs — a
payment record with a non-zero amount makes the embedded handler's `paid` true,
and with a single answered payment question the embedded rule agrees with the
any-question reading. -/
theorem paid_per_path_characterization_witness :
    paidEmbedded (some amountPayment) none none [] = true ∧
    paidEmbedded none none none exQaPaid
      = ((none : Option Payment).isSome || sigQaAnswer exQaPaid || sigFlagTrue none
          || sigStatusPaid none) :=
  ⟨(paid_per_path_characterization (some amountPayment) none none []).2.2.1 (by decide),
   (paid_per_path_characterization none none none exQaPaid).2.2.2 (by decide)⟩

/-- C2: the escaping contract checked on both escapers.  The production
escaper (backslashes doubled first, then quotes) round-trips every email
through the SOQL string-literal reader; the quote-only escaper used on the
legacy webhook variant, the embedded variant and the sweep loses the backslash
of the email `x\@y.co`: the literal parses back as `x@y.co`, not the original
value. -/
theorem email_escaping_roundtrip_check :
    (∀ e rest : List Char, readSoqlLit (safeEmailProd e ++ '\'' :: rest) = some (e, rest)) ∧
    readSoqlLit (safeEmailLegacy ("x\\@y.co".toList) ++ '\'' :: (" ORDER".toList))
      = some ("x@y.co".toList, " ORDER".toList) ∧
    ("x@y.co".toList ≠ "x\\@y.co".toList) := by
  refine ⟨?_, by decide, by decide⟩
  intro e rest
  induction e with
  | nil =>
    show readSoqlLit ('\'' :: rest) = some ([], rest)
    rw [readSoqlLit.eq_def]
    simp
  | cons c cs ih =>
    by_cases hb : c = '\\'
    · subst hb
      have h1 : safeEmailProd ('\\' :: cs) = '\\' :: '\\' :: safeEmailProd cs := by
        simp [safeEmailProd, replaceBackslash, replaceQuote]
      rw [h1]
      simp only [List.cons_append]
      rw [readSoqlLit.eq_def]
      simp [ih]
    · by_cases hc : c = '\''
      · subst hc
        have h1 : safeEmailProd ('\'' :: cs) = '\\' :: '\'' :: safeEmailProd cs := by
          simp [safeEmailProd, replaceBackslash, replaceQuote]
        rw [h1]
        simp only [List.cons_append]
        rw [readSoqlLit.eq_def]
        simp [ih]
      · have h1 : safeEmailProd (c :: cs) = c :: safeEmailProd cs := by
          simp [safeEmailProd, replaceBackslash, replaceQuote, hb, hc]
        rw [h1]
        simp only [List.cons_append]
        rw [readSoqlLit.eq_def]
        simp [ih, hb, hc]

/-- With at least one unit of fuel, the retry loop issues at least one attempt. -/
theorem retryAux_attempts_ne_nil (q : Nat → Except Nat (Option (List Char))) :
    ∀ fuel a, 1 ≤ fuel → (retryAux q a fuel).2.1 ≠ []
  | 0, _, h => by omega
  | fuel + 1, a, _ => by
    rw [retryAux.eq_def]
    cases hq : q a with
    | error s => simp [hq]
    | ok r =>
      cases hr : jsOrNone r with
      | some id => simp [hq, hr]
      | none =>
        by_cases ha : a < maxAttempts <;> simp [hq, hr, ha]

/-- The retry loop issues at most `fuel` attempts. -/
theorem retryAux_attempts_len (q : Nat → Except Nat (Option (List Char))) :
    ∀ fuel a, (retryAux q a fuel).2.1.length ≤ fuel
  | 0, _ => by simp [retryAux]
  | fuel + 1, a => by
    rw [retryAux.eq_def]
    cases hq : q a with
    | error s => simp [hq]
    | ok r =>
      cases hr : jsOrNone r with
      | some id => simp [hq, hr]
      | none =>
        by_cases ha : a < maxAttempts
        · have hrec := retryAux_attempts_len q fuel (a + 1)
          simp [hq, hr, ha]
          omega
        · simp [hq, hr, ha]

/-- Each delay the retry loop takes is exactly `2 ^ n * 1000` ms for the
attempt `n` it follows, and no delay follows the final attempt. -/
theorem retryAux_delays (q : Nat → Except Nat (Option (List Char))) :
    ∀ fuel a, maxAttempts + 1 ≤ a + fuel →
      (retryAux q a fuel).2.2 = ((retryAux q a fuel).2.1.dropLast).map (fun n => 2 ^ n * 1000)
  | 0, a, h => by simp [retryAux]
  | fuel + 1, a, h => by
    rw [retryAux.eq_def]
    cases hq : q a with
    | error s => simp [hq]
    | ok r =>
      cases hr : jsOrNone r with
      | some id => simp [hq, hr]
      | none =>
        by_cases ha : a < maxAttempts
        · have hfuel : 1 ≤ fuel := by
            have hm : maxAttempts = 5 := rfl
            omega
          have hne := retryAux_attempts_ne_nil q fuel (a + 1) hfuel
          rcases List.exists_cons_of_ne_nil hne with ⟨x, xs, hx⟩
          have hrec := retryAux_delays q fuel (a + 1) (by omega)
          simp [hq, hr, ha, hx, List.dropLast_cons₂]
          rw [hx] at hrec
          simpa [List.dropLast_cons₂] using hrec
        · simp [hq, hr, ha]

/-- When the record first becomes visible at attempt `k` (within bounds), the
retry loop stops there with that id and its attempt list is exactly `a..k`. -/
theorem retryAux_success (q : Nat → Except Nat (Option (List Char))) (id : List Char)
    (hid : id ≠ []) :
    ∀ fuel a k, a ≤ k → k ≤ maxAttempts → maxAttempts + 1 ≤ a + fuel →
      q k = .ok (some id) → (∀ j, a ≤ j → j < k → q j = .ok none) →
      (retryAux q a fuel).1 = .ok (some id) ∧ (retryAux q a fuel).2.1 = List.range' a (k + 1 - a)
  | 0, a, k, hak, hk, hfuel, hqk, hall => by omega
  | fuel + 1, a, k, hak, hk, hfuel, hqk, hall => by
    rw [retryAux.eq_def]
    by_cases heq : a = k
    · subst heq
      have hjs : jsOrNone (some id) = some id := by
        cases id with
        | nil => exact absurd rfl hid
        | cons c cs => simp [jsOrNone]
      have hk1 : a + 1 - a = 1 := by omega
      simp [hqk, hjs, hk1, List.range']
    · have hlt : a < k := by omega
      have hqa : q a = .ok none := hall a (le_refl a) hlt
      have hja : jsOrNone (none : Option (List Char)) = none := rfl
      have ha : a < maxAttempts := by omega
      have hrec := retryAux_success q id hid fuel (a + 1) k (by omega) hk (by omega) hqk
        (fun j h1 h2 => hall j (by omega) h2)
      have hsucc : k + 1 - a = (k - a) + 1 := by omega
      have hrange : List.range' a (k + 1 - a) = a :: List.range' (a + 1) (k - a) := by
        rw [hsucc, List.range'_succ]
      have hstep : k + 1 - (a + 1) = k - a := by omega
      rw [hstep] at hrec
      simp [hqa, hja, ha, hrange, hrec.1, hrec.2]

/-- C3: the lead resolver's retry policy.  For every query oracle, at most 5
attempts are issued; the delay list is exactly `2 ^ n * 1000` ms for each
non-final attempt `n` (2s, 4s, 8s, 16s after attempts 1–4), with no delay after
the final attempt; and when the record first appears on attempt `k`, the search
returns it and the attempts are exactly `1..k` — no further attempts occur. -/
theorem lead_retry_policy (q : Nat → Except Nat (Option (List Char))) :
    (leadAttempts q).length ≤ maxAttempts ∧
    leadDelays q = ((leadAttempts q).dropLast).map (fun n => 2 ^ n * 1000) ∧
    ∀ k id, 1 ≤ k → k ≤ maxAttempts → q k = .ok (some id) → id ≠ [] →
      (∀ j, 1 ≤ j → j < k → q j = .ok none) →
      leadResult q = .ok (some id) ∧ leadAttempts q = List.range' 1 k := by
  refine ⟨retryAux_attempts_len q maxAttempts 1, retryAux_delays q maxAttempts 1 (by decide), ?_⟩
  intro k id h1 hk hqk hid hall
  have h := retryAux_success q id hid maxAttempts 1 k h1 hk (by decide) hqk hall
  have hk1 : k + 1 - 1 = k := by omega
  rw [hk1] at h
  exact h

/-- C3 witness: with a record appearing on attempt 2, the policy theorem gives
the result found there and attempts exactly `[1, 2]`. -/
theorem lead_retry_policy_witness :
    leadResult exQueryFound2 = .ok (some ['L']) ∧ leadAttempts exQueryFound2 = List.range' 1 2 := by
  refine (lead_retry_policy exQueryFound2).2.2 2 ['L'] (by decide) (by decide) rfl (by decide) ?_
  intro j hj1 hj2
  have hj : j = 1 := by omega
  subst hj
  rfl

/-- `split('T')[0]` recovers the date part of a well-formed timestamp: the
prefix before the first `'T'`. -/
theorem takeWhile_date (r : List Char) :
    ∀ d : List Char, 'T' ∉ d →
      (d ++ 'T' :: r).takeWhile (fun c => !decide (c = 'T')) = d
  | [], _ => by simp
  | c :: cs, h => by
    have hc : c ≠ 'T' := fun hh => h (hh ▸ List.mem_cons_self c cs)
    have hcs : 'T' ∉ cs := fun hh => h (List.mem_cons_of_mem c hh)
    simp only [List.cons_append, List.takeWhile_cons]
    simp [hc, takeWhile_date r cs hcs]

/-- C4: counterexample to "`surveyDate` and `startTimeUtc` are null together on
every path".  On the sweep path, a missing start time yields the empty string
(`''`), not null: the sweep's `surveyDate` is never a null value. -/
theorem surveyDate_null_counterexample :
    sweepSurveyDateJs none = StrOrNull.str [] ∧ sweepSurveyDateJs none ≠ StrOrNull.null := by
  constructor <;> decide

/-- C4 (amended): `surveyDate` is a pure function of the start time on every
path.  On the webhook paths it is null exactly when the (falsy-collapsed) start
time is null, and for a well-formed timestamp `date ++ 'T' ++ rest` with a
10-character date it equals the date part; the sweep derives the same date part
but substitutes the empty string — not null — when the start time is absent. -/
theorem surveyDate_derivation (d r : List Char) (hlen : d.length = 10) (hT : 'T' ∉ d) :
    hookSurveyDate (some (d ++ 'T' :: r)) = .str d ∧
    sweepSurveyDateJs (some (d ++ 'T' :: r)) = .str d ∧
    hookSurveyDate none = .null ∧
    (∀ s, hookSurveyDate s = .null ↔ hookStartISO s = none) ∧
    sweepSurveyDateJs none = .str [] := by
  have hne : (d ++ 'T' :: r).isEmpty = false := by
    cases d <;> rfl
  refine ⟨?_, ?_, rfl, ?_, rfl⟩
  · have htake : (d ++ 'T' :: r).take 10 = d := List.take_left' hlen
    simp [hookSurveyDate, hookStartISO, jsOrNone, hne, htake]
  · simp [sweepSurveyDateJs, sweepSurveyDate, hne, takeWhile_date r d hT]
  · intro s
    cases h : hookStartISO s with
    | none => simp [hookSurveyDate, h]
    | some v => simp [hookSurveyDate, h]

/-- C4 witness: the derivation theorem applied to the concrete timestamp
`2025-11-03T10:00:00Z` on both paths. -/
theorem surveyDate_derivation_witness :
    hookSurveyDate (some ("2025-11-03T10:00:00Z".toList)) = .str ("2025-11-03".toList) ∧
    sweepSurveyDateJs (some ("2025-11-03T10:00:00Z".toList)) = .str ("2025-11-03".toList) :=
  ⟨(surveyDate_derivation ("2025-11-03".toList) ("10:00:00Z".toList) (by decide) (by decide)).1,
   (surveyDate_derivation ("2025-11-03".toList) ("10:00:00Z".toList) (by decide) (by decide)).2.1⟩

/-- C5: the Update Applier is idempotent.  Applying the same booking's patch
twice to a record gives exactly the state of applying it once (no error is
possible at this level: the operation is total), and the resulting managed
fields do not depend on the record's prior state — a full overwrite, not an
increment or append. -/
theorem update_applier_idempotent (sd : StrOrNull) (p : Bool) (r r2 : LeadRecord) :
    applyPatch (applyPatch r sd p) sd p = applyPatch r sd p ∧
    (applyPatch r sd p).surveyScheduled = (applyPatch r2 sd p).surveyScheduled ∧
    (applyPatch r sd p).surveyPaymentComplete = (applyPatch r2 sd p).surveyPaymentComplete :=
  ⟨rfl, rfl, rfl⟩

/-- C9: the sweep trigger's gate.  With no configured secret, and likewise with
an empty configured secret, every request passes (gate returns false), whatever
the authorization header — including an absent one; with a non-empty secret,
the request is rejected with 401 exactly when the header differs from
`Bearer <secret>`. -/
theorem cron_auth_gate_iff :
    (∀ h, cronAuthGate none h = false) ∧
    (∀ h, cronAuthGate (some []) h = false) ∧
    ∀ s h, s ≠ [] → (cronAuthGate (some s) h = true ↔ h ≠ some ("Bearer ".toList ++ s)) := by
  refine ⟨fun h => rfl, fun h => rfl, fun s h hs => ?_⟩
  have hse : s.isEmpty = false := by
    cases s with
    | nil => exact absurd rfl hs
    | cons c cs => rfl
  simp [cronAuthGate, hse]

/-- C9 witness: with configured secret "sec" and no authorization header, the
gate rejects the request. -/
theorem cron_auth_gate_iff_witness : cronAuthGate (some ("sec".toList)) none = true :=
  (cron_auth_gate_iff.2.2 ("sec".toList) none (by decide)).mpr (by decide)

/-- C6: counterexample to "a syntactically invalid email fails fast before any
network call".  With every dependency healthy and the invalid email
`notanemail`, the production handler does return 400 Invalid email format — but
its call trace already contains the two booking-service fetches and the CRM
token acquisition, so network calls did occur. -/
theorem invalid_email_network_counterexample :
    (prodHandler (some ("https://inv".toList)) (some ("https://ev".toList))
        (some ("notanemail".toList)) exHookEnvOk).1
      = .badRequest ("Invalid email format".toList) ∧
    (prodHandler (some ("https://inv".toList)) (some ("https://ev".toList))
        (some ("notanemail".toList)) exHookEnvOk).2.1
      = [.calInvitee, .calEvent, .sfToken] ∧
    (prodHandler (some ("https://inv".toList)) (some ("https://ev".toList))
        (some ("notanemail".toList)) exHookEnvOk).2.1 ≠ [] := by
  refine ⟨rfl, rfl, by decide⟩

/-- C6 (amended): on the production webhook handler, a syntactically invalid
email is rejected with 400 before any CRM query and with no retry delay — but
only after the two booking-service fetches and the CRM authentication have
occurred; the legacy variants perform no email validity check at all. -/
theorem invalid_email_fails_before_query (iu eu em : Option (List Char)) (env : HookEnv)
    (inv : CalInvitee) (evt : CalEvent)
    (h1 : truthyStr iu = true) (h2 : truthyStr eu = true) (h3 : truthyStr em = true)
    (hpat : env.calendlyPat.isEmpty = false)
    (hfi : env.fetchInvitee = .ok inv) (hfe : env.fetchEvent = .ok evt)
    (hauth : env.sfAuth = .ok ())
    (hbad : validEmail (em.getD []) = false) :
    prodHandler iu eu em env =
      (.badRequest ("Invalid email format".toList), [.calInvitee, .calEvent, .sfToken], []) := by
  simp [prodHandler, h1, h2, h3, hpat, hfi, hfe, hauth, hbad]

/-- C6 witness: the amended statement applied to the concrete invalid email
`notanemail` against the all-healthy environment. -/
theorem invalid_email_fails_before_query_witness :
    prodHandler (some ("https://inv".toList)) (some ("https://ev".toList))
        (some ("notanemail".toList)) exHookEnvOk =
      (.badRequest ("Invalid email format".toList), [.calInvitee, .calEvent, .sfToken], []) :=
  invalid_email_fails_before_query (some ("https://inv".toList)) (some ("https://ev".toList))
    (some ("notanemail".toList)) exHookEnvOk ⟨none, none⟩
    ⟨some ("2025-11-03T10:00:00Z".toList), none⟩
    (by decide) (by decide) (by decide) (by decide) rfl rfl rfl (by decide)

/-- Each invitee the sweep processes increments exactly one of the three
counters. -/
theorem ctot_inviteeStep (env : SweepEnv) (st : Option (List Char)) (inv : SweepInvitee)
    (c : Counters) : ctot (sweepInviteeStep env st inv c).1 = ctot c + 1 := by
  rw [sweepInviteeStep.eq_def]
  cases hem : inv.email with
  | none => simp [ctot]; omega
  | some e =>
    by_cases hee : e.isEmpty
    · simp [hee, ctot]; omega
    · cases hq : env.queryLead e with
      | error s => simp [hee, hq, ctot]; omega
      | ok ol =>
        cases ol with
        | none => simp [hee, hq, ctot]; omega
        | some lead =>
          by_cases hb : (strOrNullTruthy lead.surveyScheduled && lead.surveyPaymentComplete) = true
          · simp [hee, hq, hb, ctot]; omega
          · by_cases hp : env.patchOk lead.id = true <;>
              simp [hee, hq, hb, hp, ctot] <;> omega

/-- Folding the invitee list adds exactly its length to the counter total. -/
theorem ctot_invitees (env : SweepEnv) (st : Option (List Char)) :
    ∀ (l : List SweepInvitee) (acc : Counters × List PatchCall),
      ctot (sweepInvitees env st l acc).1 = ctot acc.1 + l.length
  | [], acc => by simp [sweepInvitees]
  | inv :: rest, acc => by
    rw [sweepInvitees]
    rw [ctot_invitees env st rest]
    rw [ctot_inviteeStep]
    simp
    omega

/-- One event adds exactly its attempt weight to the counter total. -/
theorem ctot_eventStep (env : SweepEnv) (ev : SweepEvent) (acc : Counters × List PatchCall) :
    ctot (sweepEventStep env ev acc).1 = ctot acc.1 + attemptWeight ev := by
  rw [sweepEventStep.eq_def, attemptWeight.eq_def]
  cases hi : ev.invitees with
  | error s => simp [ctot]; omega
  | ok l => simp [ctot_invitees]

/-- Folding the event list adds exactly the run's attempt count. -/
theorem ctot_events (env : SweepEnv) :
    ∀ (evs : List SweepEvent) (acc : Counters × List PatchCall),
      ctot (sweepEvents env evs acc).1 = ctot acc.1 + attemptCount evs
  | [], acc => by simp [sweepEvents, attemptCount]
  | ev :: rest, acc => by
    rw [sweepEvents]
    rw [ctot_events env rest]
    rw [ctot_eventStep]
    simp [attemptCount]
    omega

/-- C7: the sweep's skip rule for an invitee with a non-empty email whose lead
resolves.  When both managed fields are already set (truthy date and true
flag), the step issues no PATCH and increments only `skipped`; when they are
not both set, the step does issue a PATCH for that lead with the booking's
derived fields. -/
theorem sweep_skip_already_set (env : SweepEnv) (st : Option (List Char))
    (inv : SweepInvitee) (c : Counters) (e : List Char) (lead : SweepLead)
    (hem : inv.email = some e) (hne : e.isEmpty = false)
    (hq : env.queryLead e = .ok (some lead)) :
    ((strOrNullTruthy lead.surveyScheduled && lead.surveyPaymentComplete) = true →
      sweepInviteeStep env st inv c = (⟨c.processed, c.skipped + 1, c.errors⟩, [])) ∧
    ((strOrNullTruthy lead.surveyScheduled && lead.surveyPaymentComplete) = false →
      (sweepInviteeStep env st inv c).2 =
        [⟨lead.id, patchBodySweep (sweepSurveyDate st) (paidSweep inv.payment)⟩]) := by
  constructor <;> intro hb
  · simp [sweepInviteeStep, hem, hne, hq, hb]
  · by_cases hp : env.patchOk lead.id = true <;>
      simp [sweepInviteeStep, hem, hne, hq, hb, hp]

/-- C7 witness: an invitee whose lead already carries a survey date and a true
payment flag is skipped with no patch call. -/
theorem sweep_skip_already_set_witness :
    sweepInviteeStep exEnvLeadSet none exInviteeA ⟨0, 0, 0⟩ = (⟨0, 1, 0⟩, []) :=
  (sweep_skip_already_set exEnvLeadSet none exInviteeA ⟨0, 0, 0⟩ ("a@b.co".toList) exLeadSet
    rfl rfl rfl).1 (by decide)

/-- C8: counterexample to "the success response reports processed, skipped,
errors and totalEvents for every run".  A run whose event listing is empty
returns early with only `processed: 0`; skipped, errors and totalEvents are
absent from that response. -/
theorem sweep_response_empty_counterexample :
    sweepResponse exEnvLeadSet [] = ⟨true, some 0, none, none, none⟩ ∧
    (sweepResponse exEnvLeadSet []).skipped = none ∧
    (sweepResponse exEnvLeadSet []).totalEvents = none := by
  refine ⟨rfl, rfl, rfl⟩

/-- C8 (amended): every listed invitee is attempted exactly once and increments
exactly one counter — per-invitee failures are counted as errors and do not
abort the run — so the three counters sum to the run's attempt count (one per
listed invitee, plus one error per event whose invitee listing failed); and
whenever at least one event is listed, the success response reports all four
aggregates.  A zero-event run returns success with only `processed: 0`. -/
theorem sweep_run_accounting (env : SweepEnv) (events : List SweepEvent) :
    (runSweep env events).1.processed + (runSweep env events).1.skipped
        + (runSweep env events).1.errors = attemptCount events ∧
    (events ≠ [] → sweepResponse env events =
      ⟨true, some (runSweep env events).1.processed, some (runSweep env events).1.skipped,
        some (runSweep env events).1.errors, some events.length⟩) := by
  constructor
  · have h := ctot_events env events (⟨0, 0, 0⟩, [])
    simpa [runSweep, ctot] using h
  · intro h
    rcases List.exists_cons_of_ne_nil h with ⟨ev, rest, hx⟩
    subst hx
    rfl

/-- C8 witness: a one-event, one-invitee run against an unset lead patches it
and reports `processed 1, skipped 0, errors 0, totalEvents 1`. -/
theorem sweep_run_accounting_witness :
    (runSweep exEnvLeadUnset [exEventOne]).1.processed
        + (runSweep exEnvLeadUnset [exEventOne]).1.skipped
        + (runSweep exEnvLeadUnset [exEventOne]).1.errors = attemptCount [exEventOne] ∧
    sweepResponse exEnvLeadUnset [exEventOne] =
      ⟨true, some (runSweep exEnvLeadUnset [exEventOne]).1.processed,
        some (runSweep exEnvLeadUnset [exEventOne]).1.skipped,
        some (runSweep exEnvLeadUnset [exEventOne]).1.errors, some [exEventOne].length⟩ :=
  ⟨(sweep_run_accounting exEnvLeadUnset [exEventOne]).1,
   (sweep_run_accounting exEnvLeadUnset [exEventOne]).2 (List.cons_ne_nil _ _)⟩

/-- Every PATCH one invitee step issues carries the two managed fields. -/
theorem inviteeStep_patch_shape (env : SweepEnv) (st : Option (List Char))
    (inv : SweepInvitee) (c : Counters) :
    ∀ pc ∈ (sweepInviteeStep env st inv c).2, twoFieldBody pc := by
  intro pc hpc
  cases hem : inv.email with
  | none => simp [sweepInviteeStep, hem] at hpc
  | some e =>
    by_cases hee : e.isEmpty
    · simp [sweepInviteeStep, hem, hee] at hpc
    · cases hq : env.queryLead e with
      | error s => simp [sweepInviteeStep, hem, hee, hq] at hpc
      | ok ol =>
        cases ol with
        | none => simp [sweepInviteeStep, hem, hee, hq] at hpc
        | some lead =>
          by_cases hb : (strOrNullTruthy lead.surveyScheduled && lead.surveyPaymentComplete) = true
          · simp [sweepInviteeStep, hem, hee, hq, hb] at hpc
          · by_cases hp : env.patchOk lead.id = true <;>
              simp [sweepInviteeStep, hem, hee, hq, hb, hp] at hpc <;>
              simp [hpc, twoFieldBody, patchBodySweep]

/-- Patch-shape preservation over the invitee fold. -/
theorem invitees_patch_shape (env : SweepEnv) (st : Option (List Char)) :
    ∀ (l : List SweepInvitee) (acc : Counters × List PatchCall),
      (∀ pc ∈ acc.2, twoFieldBody pc) →
      ∀ pc ∈ (sweepInvitees env st l acc).2, twoFieldBody pc
  | [], _, hacc => hacc
  | inv :: rest, acc, hacc => by
    rw [sweepInvitees]
    apply invitees_patch_shape env st rest
    intro pc hpc
    rcases List.mem_append.mp hpc with h | h
    · exact hacc pc h
    · exact inviteeStep_patch_shape env st inv acc.1 pc h

/-- Patch-shape preservation over one event. -/
theorem eventStep_patch_shape (env : SweepEnv) (ev : SweepEvent)
    (acc : Counters × List PatchCall) (hacc : ∀ pc ∈ acc.2, twoFieldBody pc) :
    ∀ pc ∈ (sweepEventStep env ev acc).2, twoFieldBody pc := by
  rw [sweepEventStep.eq_def]
  cases hi : ev.invitees with
  | error s => simpa using hacc
  | ok l => exact invitees_patch_shape env ev.start_time l acc hacc

/-- Patch-shape preservation over the event fold. -/
theorem events_patch_shape (env : SweepEnv) :
    ∀ (evs : List SweepEvent) (acc : Counters × List PatchCall),
      (∀ pc ∈ acc.2, twoFieldBody pc) →
      ∀ pc ∈ (sweepEvents env evs acc).2, twoFieldBody pc
  | [], _, hacc => hacc
  | ev :: rest, acc, hacc => by
    rw [sweepEvents]
    exact events_patch_shape env rest _ (eventStep_patch_shape env ev acc hacc)

/-- Every PATCH the production webhook handler issues carries the two managed
fields. -/
theorem prodHandler_patch_shape (iu eu em : Option (List Char)) (env : HookEnv) :
    ∀ lid b, ExtCall.sfPatch lid b ∈ (prodHandler iu eu em env).2.1 →
      b.map Prod.fst = [surveyScheduledField, surveyPaymentField] := by
  intro lid b hmem
  rw [prodHandler.eq_def] at hmem
  by_cases h0 : (truthyStr iu && truthyStr eu && truthyStr em) = true
  swap
  · simp [h0] at hmem
  · by_cases hpat : env.calendlyPat.isEmpty = true
    · simp [h0, hpat] at hmem
    · cases hfi : env.fetchInvitee with
      | error s => simp [h0, hpat, hfi] at hmem
      | ok inv =>
        cases hfe : env.fetchEvent with
        | error s => simp [h0, hpat, hfe, hfi] at hmem
        | ok evt =>
          cases hauth : env.sfAuth with
          | error s => simp [h0, hpat, hfi, hfe, hauth] at hmem
          | ok u =>
            by_cases hval : validEmail (em.getD []) = true
            swap
            · simp [h0, hpat, hfi, hfe, hauth, hval] at hmem
            · cases hres : (leadSearch env.query).1 with
              | error s => simp [h0, hpat, hfi, hfe, hauth, hval, hres, List.mem_map] at hmem
              | ok ol =>
                cases ol with
                | none => simp [h0, hpat, hfi, hfe, hauth, hval, hres, List.mem_map] at hmem
                | some leadId =>
                  by_cases hp : env.patchOk = true <;>
                    simp [h0, hpat, hfi, hfe, hauth, hval, hres, hp, List.mem_map] at hmem <;>
                    simp [hmem.2, patchBodyHook]

/-- C10: every CRM write sends exactly the two managed fields together.  Both
patch-body constructors produce exactly `Survey_scheduled__c` and
`Survey_payment_complete__c` (in one request, never one without the other);
every PATCH recorded in a sweep run and every PATCH the production webhook
issues has exactly those two keys; and applying the patch leaves all other
fields of the lead record untouched. -/
theorem patch_exactly_two_fields :
    (∀ sd p, (patchBodyHook sd p).map Prod.fst = [surveyScheduledField, surveyPaymentField]) ∧
    (∀ sd p, (patchBodySweep sd p).map Prod.fst = [surveyScheduledField, surveyPaymentField]) ∧
    (∀ r sd p, (applyPatch r sd p).others = r.others) ∧
    (∀ env events, ∀ pc ∈ (runSweep env events).2, twoFieldBody pc) ∧
    (∀ iu eu em env lid b, ExtCall.sfPatch lid b ∈ (prodHandler iu eu em env).2.1 →
      b.map Prod.fst = [surveyScheduledField, surveyPaymentField]) := by
  refine ⟨fun sd p => rfl, fun sd p => rfl, fun r sd p => rfl, ?_, prodHandler_patch_shape⟩
  intro env events pc hpc
  exact events_patch_shape env events (⟨0, 0, 0⟩, []) (by simp) pc hpc

/-- C10 witness: the one PATCH issued by the one-invitee sweep run carries
exactly the two managed fields. -/
theorem patch_exactly_two_fields_witness :
    twoFieldBody ⟨"00Q2".toList, patchBodySweep ("2025-11-03".toList) false⟩ :=
  patch_exactly_two_fields.2.2.2.1 exEnvLeadUnset [exEventOne]
    ⟨"00Q2".toList, patchBodySweep ("2025-11-03".toList) false⟩ (by decide)
